import Mathlib

/-!
Verification of the two1-python mock transaction data provider
(`two1/wallet/mock_txn_data_provider.py`) and the update command's
`stop_walletd` (`two1/commands/update.py`), as a shallow embedding.

Addresses are opaque tokens produced by HD key derivation (the crypto layer
is not part of the verified sources), so they are modelled as natural
numbers.  Python `dict`s keyed by small integer ranges are modelled as total
functions; list slices and `range` objects are modelled faithfully,
including Python's clamping behaviour for out-of-bounds slice ends.
-/

namespace Two1

/-- Opaque address token (Python: a base58 address string). -/
abbrev Addr := Nat

/-- A Python `range(start, stop)` object as stored in `MockTxnDict.addr_range`
(only `start` and `stop` are ever read; step is always 1). -/
structure IntRange where
  start : Int
  stop : Int
deriving DecidableEq, Repr

/-- `two1/wallet/mock_txn_data_provider.py`, `class MockTxnDict(dict)`:
constructor arguments stored verbatim. -/
structure MockTxnDict (α β : Type) where
  num_used : Nat
  addr_range : IntRange
  addr_list : List α
  used_value : β
  unused_value : β
deriving DecidableEq

/-- `self.start = max([0, self.addr_range.start])`. -/
def MockTxnDict.startIdx {α β : Type} (d : MockTxnDict α β) : Int :=
  max 0 d.addr_range.start

/-- `self.end = min([self.num_used, self.addr_range.stop])`. -/
def MockTxnDict.endIdx {α β : Type} (d : MockTxnDict α β) : Int :=
  min (d.num_used : Int) d.addr_range.stop

/-- Python list slice `l[s:e]` for `0 ≤ s` (the only way `MockTxnDict`
slices: its `start` is clamped at 0, and a negative `end` is cut off by the
`start > end` guard before slicing).  Out-of-range bounds clamp, as in
Python. -/
def pySlice {α : Type} (l : List α) (s e : Int) : List α :=
  (l.take e.toNat).drop s.toNat

/-- `MockTxnDict.__contains__`:
`if self.num_used == 0 or self.start > self.end: return False`
`return item in self.addr_list[self.start:self.end]`. -/
def MockTxnDict.contains {α β : Type} [DecidableEq α]
    (d : MockTxnDict α β) (item : α) : Bool :=
  if d.num_used = 0 ∨ d.startIdx > d.endIdx then false
  else decide (item ∈ pySlice d.addr_list d.startIdx d.endIdx)

/-- `MockTxnDict.__getitem__`: `self.used_value` when `item in self`, else
`self.unused_value`; total, never raises `KeyError`. -/
def MockTxnDict.getItem {α β : Type} [DecidableEq α]
    (d : MockTxnDict α β) (item : α) : β :=
  if d.contains item then d.used_value else d.unused_value

/-- Modelled from the spec: `is_used(index, num_used, window) -> bool`, the
pure usedness function the spec re-expresses `MockTxnDict` with — an index
is reported used iff it lies in the probed window and below `num_used`. -/
def is_used (index num_used : Nat) (window : IntRange) : Bool :=
  decide (max 0 window.start ≤ (index : Int) ∧
          (index : Int) < min (num_used : Int) window.stop)

section SliceLemmas

variable {α : Type}

theorem mem_take_drop (l : List α) (S E : Nat) (a : α) :
    a ∈ (l.take E).drop S ↔ ∃ i : Nat, S ≤ i ∧ i < E ∧ l.get? i = some a := by
  rw [List.mem_iff_get?]
  constructor
  · rintro ⟨j, hj⟩
    rw [List.get?_drop] at hj
    have hlen : S + j < (l.take E).length := by
      have := List.get?_eq_some.mp hj
      exact this.1
    rw [List.length_take] at hlen
    have hE : S + j < E := lt_of_lt_of_le hlen (min_le_left _ _)
    refine ⟨S + j, Nat.le_add_right _ _, hE, ?_⟩
    rwa [List.get?_take hE] at hj
  · rintro ⟨i, hSi, hiE, hget⟩
    refine ⟨i - S, ?_⟩
    rw [List.get?_drop]
    have hin : S + (i - S) = i := by omega
    rw [hin, List.get?_take hiE]
    exact hget

theorem mem_pySlice (l : List α) (s e : Int) (hs : 0 ≤ s) (a : α) :
    a ∈ pySlice l s e ↔
      ∃ i : Nat, s ≤ (i : Int) ∧ (i : Int) < e ∧ l.get? i = some a := by
  unfold pySlice
  rw [mem_take_drop]
  constructor
  · rintro ⟨i, hSi, hiE, hget⟩
    exact ⟨i, by omega, by omega, hget⟩
  · rintro ⟨i, hsi, hie, hget⟩
    exact ⟨i, by omega, by omega, hget⟩

end SliceLemmas

/-- Modelled from the spec: `HDAccount.GAP_LIMIT` (the class `HDAccount` in
`two1/wallet/hd_account.py` is not among the verified sources).  The spec's
scenarios fix `gap_limit = 20`. -/
def GAP_LIMIT : Nat := 20

/-- Modelled from the spec: `HDAccount.DISCOVERY_INCREMENT`; the spec's
scenarios fix `increment = 20`. -/
def DISCOVERY_INCREMENT : Nat := 20

/-- `MockTransactionDataProvider.address_increment = HDAccount.DISCOVERY_INCREMENT`. -/
def address_increment : Nat := DISCOVERY_INCREMENT

/-- `MockTransactionDataProvider.max_address = 8 * address_increment`. -/
def max_address : Nat := 8 * address_increment

/-- `MockTransactionDataProvider.max_accounts = 10`. -/
def max_accounts : Nat := 10

/-- `two1/bitcoin/txn.py` `Transaction` is outside the verified sources; only
the constructor shape `Transaction(1, [], [], 0)` is used, and responses are
inspected solely for emptiness, so fields are opaque. -/
structure Transaction where
  version : Nat
  inputs : List Unit
  outputs : List Unit
  lock_time : Nat
deriving DecidableEq

/-- `dummy_txn = Transaction(1, [], [], 0)`. -/
def dummy_txn : Transaction := ⟨1, [], [], 0⟩

/-- The dictionary values queued for `get_transactions`. -/
abbrev TxnResponse := MockTxnDict Addr (List Transaction)

/-- Modelled from the spec: `AccountType` selects a derivation-path profile
(`two1/wallet/account_types.py` is not among the verified sources); the
profile is an opaque code. -/
structure AccountType where
  derivationCode : Nat
deriving DecidableEq

/-- One entry of `self._acct_keys`: account key, chain keys and the
`max_address`-long per-chain address lists (keys are opaque codes). -/
structure AcctKeys where
  acct_key : Nat
  payout_key : Nat
  change_key : Nat
  payout_addresses : List Addr
  change_addresses : List Addr
deriving DecidableEq

/-- Modelled from the spec: address derivation is a pure deterministic
function of master key, account type, account index, chain and address
index (the crypto layer is outside the verified sources); modelled as an
injective numeric encoding. -/
def addr_code (t : AccountType) (mk acct chain idx : Nat) : Addr :=
  (((t.derivationCode * 1000 + mk) * max_accounts + acct) * 2 + chain) * max_address + idx

/-- Modelled from the spec: the body of the loop in the `hd_master_key`
setter — derive account, payout and change keys and the two
`max_address`-long address lists for account `i` from master key `mk`. -/
def deriveAcctKeys (t : AccountType) (mk : Nat) (i : Nat) : AcctKeys :=
  { acct_key := (t.derivationCode * 1000 + mk) * max_accounts + i
  , payout_key := ((t.derivationCode * 1000 + mk) * max_accounts + i) * 2
  , change_key := ((t.derivationCode * 1000 + mk) * max_accounts + i) * 2 + 1
  , payout_addresses := (List.range max_address).map (addr_code t mk i 0)
  , change_addresses := (List.range max_address).map (addr_code t mk i 1) }

/-- The mutable state of a `MockTransactionDataProvider` instance.  The
Python dicts `_acct_keys` (keys `0..max_accounts-1`) and
`_num_used_addresses` (keys `0..max_accounts-1`, inner keys `0/1`) are
modelled as total functions; `balances_hd` is the `return_value` of the
`get_balance_hd` `MagicMock`, `txn_side_effects` the pending `side_effect`
queue of the `get_transactions` `MagicMock`. -/
structure MockProviderState where
  account_type : AccountType
  hd_master_key : Nat
  acct_keys : Nat → AcctKeys
  num_used_addresses : Nat → Fin 2 → Nat
  num_used_accounts : Nat
  addr_list : List Addr
  balances_hd : Addr → Option (Nat × Nat)
  txn_side_effects : List TxnResponse

/-- `self._acct_keys[i]['payout_addresses'][:self._num_used_addresses[i][0]]`. -/
def usedPayout (st : MockProviderState) (i : Nat) : List Addr :=
  (st.acct_keys i).payout_addresses.take (st.num_used_addresses i 0)

/-- `self._acct_keys[i]['change_addresses'][:self._num_used_addresses[i][1]]`. -/
def usedChange (st : MockProviderState) (i : Nat) : List Addr :=
  (st.acct_keys i).change_addresses.take (st.num_used_addresses i 1)

/-- Python `d.update({a: v for a in ks})`: every key of `ks` now maps to
`v`, other keys keep their previous binding. -/
def updMany {α β : Type} [DecidableEq α] (d : α → Option β) (ks : List α) (v : β) :
    α → Option β :=
  fun a => if a ∈ ks then some v else d a

/-- One iteration of the loop in `_setup_balances_hd`: change addresses are
written first (`(0, 10000)`), then payout addresses (`(100000, 0)`). -/
def balStep (st : MockProviderState) (d : Addr → Option (Nat × Nat)) (i : Nat) :
    Addr → Option (Nat × Nat) :=
  updMany (updMany d (usedChange st i) (0, 10000)) (usedPayout st i) (100000, 0)

/-- `_setup_balances_hd`: builds the dict `d` over
`range(self._num_used_accounts)` and installs it as the `get_balance_hd`
return value. -/
def setup_balances_hd (st : MockProviderState) : Addr → Option (Nat × Nat) :=
  (List.range st.num_used_accounts).foldl (balStep st) (fun _ => none)

/-- The `hd_master_key` property setter: stores the key, rebuilds
`_acct_keys` for accounts `0..max_accounts-1` from the new key, zeroes
`_num_used_addresses[i][0/1]` for those accounts, then calls
`_setup_balances_hd`.  (`_acct_keys` is replaced wholesale; the total
function extends the dict by derivation at every index.) -/
def hd_master_key_set (st : MockProviderState) (k : Nat) : MockProviderState :=
  let st' : MockProviderState :=
    { st with
      hd_master_key := k
      acct_keys := fun i => deriveAcctKeys st.account_type k i
      num_used_addresses := fun i c =>
        if i < max_accounts then 0 else st.num_used_addresses i c }
  { st' with balances_hd := setup_balances_hd st' }

/-- `set_num_used_addresses(account_index, n, change)`. -/
def set_num_used_addresses (st : MockProviderState) (account_index n : Nat)
    (change : Fin 2) : MockProviderState :=
  let st' : MockProviderState :=
    { st with
      num_used_addresses := fun i c =>
        if i = account_index ∧ c = change then n else st.num_used_addresses i c }
  { st' with balances_hd := setup_balances_hd st' }

/-- `set_num_used_accounts(n)`. -/
def set_num_used_accounts (st : MockProviderState) (n : Nat) : MockProviderState :=
  let st' : MockProviderState := { st with num_used_accounts := n }
  { st' with balances_hd := setup_balances_hd st' }

/-- `n = self._num_used_accounts; if n == 0: n = 1` in
`set_txn_side_effect_for_hd_discovery`. -/
def numAcctsToScan (st : MockProviderState) : Nat :=
  if st.num_used_accounts = 0 then 1 else st.num_used_accounts

/-- Natural-number ceiling division; equals `math.ceil(a / b)` for `b > 0`
(at the magnitudes involved the float division in the source is exact
enough that its ceiling agrees). -/
def ceilDiv (a b : Nat) : Nat := (a + b - 1) / b

/-- `r = math.ceil((num_used + HDAccount.GAP_LIMIT) / self.address_increment);
if r == 0: r = 1` — the number of responses queued for one chain. -/
def chainBatchCount (st : MockProviderState) (acct : Nat) (change : Fin 2) : Nat :=
  let r := ceilDiv (st.num_used_addresses acct change + GAP_LIMIT) address_increment
  if r = 0 then 1 else r

/-- `self._acct_keys[acct_num]['change_addresses' if change else 'payout_addresses']`. -/
def chainAddrList (st : MockProviderState) (acct : Nat) (change : Fin 2) : List Addr :=
  if change = 1 then (st.acct_keys acct).change_addresses
  else (st.acct_keys acct).payout_addresses

/-- The `MockTxnDict` appended for loop index `i` of one chain in
`set_txn_side_effect_for_hd_discovery`. -/
def chainBatch (st : MockProviderState) (acct : Nat) (change : Fin 2) (i : Nat) :
    TxnResponse :=
  { num_used := st.num_used_addresses acct change
  , addr_range := ⟨(i * address_increment : Nat), ((i + 1) * address_increment : Nat)⟩
  , addr_list := chainAddrList st acct change
  , used_value := [dummy_txn]
  , unused_value := [] }

/-- The inner `for i in range(r)` loop of one chain, tagged with
`(acct_num, change)` for bookkeeping (the tags record which loop iteration
produced each response; the source appends the bare dicts). -/
def chainPlan (st : MockProviderState) (acct : Nat) (change : Fin 2) :
    List (Nat × Fin 2 × TxnResponse) :=
  (List.range (chainBatchCount st acct change)).map
    (fun i => (acct, change, chainBatch st acct change i))

/-- The full nested loop `for acct_num in range(n): for change in [0, 1]:`
of `set_txn_side_effect_for_hd_discovery`, tagged. -/
def hdDiscoveryPlan (st : MockProviderState) : List (Nat × Fin 2 × TxnResponse) :=
  (List.range (numAcctsToScan st)).flatMap
    (fun acct => chainPlan st acct 0 ++ chainPlan st acct 1)

/-- The `effects` list assigned to `self.get_transactions.side_effect`. -/
def hdDiscoveryEffects (st : MockProviderState) : List TxnResponse :=
  (hdDiscoveryPlan st).map (fun e => e.2.2)

/-- `set_txn_side_effect_for_hd_discovery`: installs the queue and returns
`len(effects)`. -/
def set_txn_side_effect_for_hd_discovery (st : MockProviderState) :
    MockProviderState × Nat :=
  let effects := hdDiscoveryEffects st
  ({ st with txn_side_effects := effects }, effects.length)

/-- Modelled from the spec: one `get_transactions` call against a
`MagicMock` whose `side_effect` is a list — the next queued response is
returned and removed; when the queue is exhausted the call raises
(`StopIteration`): "a queue of pre-recorded responses consumed strictly in
call order, with an explicit error if more calls occur than scripted
responses". -/
def get_transactions_call (st : MockProviderState) :
    Except Unit (TxnResponse × MockProviderState) :=
  match st.txn_side_effects with
  | [] => Except.error ()
  | d :: rest => Except.ok (d, { st with txn_side_effects := rest })

/-- Result of the `(k+1)`-th `get_transactions` call, threading the state
through the first `k` calls. -/
def callRepeatedly (st : MockProviderState) : Nat → Except Unit (TxnResponse × MockProviderState)
  | 0 => get_transactions_call st
  | Nat.succ k =>
    match get_transactions_call st with
    | Except.error e => Except.error e
    | Except.ok (_, st') => callRepeatedly st' k

/-- The `hd_account_type` argument of `MockTransactionDataProvider.__init__`:
a string, an `AccountType` object, or any other Python value. -/
inductive HDAccountTypeArg where
  | str (s : String)
  | acctType (a : AccountType)
  | other
deriving DecidableEq

/-- The exceptions `__init__` raises while validating `hd_account_type`. -/
inductive InitError where
  | valueError
  | typeError
deriving DecidableEq

/-- The validation prelude of `__init__` (lines 45–53): a string is looked
up in the `account_types` table (`ValueError` if absent), an `AccountType`
is accepted as-is, anything else raises `TypeError`.  The table
(`two1/wallet/account_types.py`) is outside the verified sources, so it is
a parameter. -/
def resolve_hd_account_type (table : List (String × AccountType)) :
    HDAccountTypeArg → Except InitError AccountType
  | HDAccountTypeArg.str s =>
    match table.lookup s with
    | some a => Except.ok a
    | none => Except.error InitError.valueError
  | HDAccountTypeArg.acctType a => Except.ok a
  | HDAccountTypeArg.other => Except.error InitError.typeError

/-- `MockTransactionDataProvider.__init__`: validate `hd_account_type`,
zero the usage counters, store `non_hd_addr_list`, assign `hd_master_key`
(running the setter), and call `_setup_balances_hd` once more.  The
`MagicMock` method attributes carry no state beyond the `get_transactions`
queue, which starts empty. -/
def mk_provider (table : List (String × AccountType)) (arg : HDAccountTypeArg)
    (mk : Nat) (non_hd_addr_list : List Addr) : Except InitError MockProviderState :=
  match resolve_hd_account_type table arg with
  | Except.error e => Except.error e
  | Except.ok t =>
    let st0 : MockProviderState :=
      { account_type := t
      , hd_master_key := 0
      , acct_keys := fun _ => ⟨0, 0, 0, [], []⟩
      , num_used_addresses := fun _ _ => 0
      , num_used_accounts := 0
      , addr_list := non_hd_addr_list
      , balances_hd := fun _ => none
      , txn_side_effects := [] }
    let st1 := hd_master_key_set st0 mk
    Except.ok { st1 with balances_hd := setup_balances_hd st1 }

/-- The two exception kinds the daemonizer layer can raise into
`stop_walletd`'s `try` block. -/
inductive DaemonErr where
  | osError
  | daemonizerError
deriving DecidableEq

/-- Modelled from the spec: the daemonizer layer
(`two1/wallet/daemonizer.py`, outside the verified sources) exposes
`get_daemonizer()`, `d.started()` and `d.stop()`, each either returning
normally or raising `OSError` / `DaemonizerError`; `stop_walletd` takes
their outcomes as `Except`-valued inputs.  This is `stop_walletd` of
`two1/commands/update.py` lines 138–154: `failed` starts `False`, is set on
`started and not stop()`, `OSError` is swallowed (`pass`), `DaemonizerError`
sets `failed`; returns `not failed`. -/
def stop_walletd (getD : Except DaemonErr Unit)
    (started : Except DaemonErr Bool) (stopD : Except DaemonErr Bool) : Bool :=
  let body : Except DaemonErr Bool :=
    match getD with
    | Except.error e => Except.error e
    | Except.ok _ =>
      match started with
      | Except.error e => Except.error e
      | Except.ok false => Except.ok false
      | Except.ok true =>
        match stopD with
        | Except.error e => Except.error e
        | Except.ok ok => Except.ok (!ok)
  match body with
  | Except.ok failed => !failed
  | Except.error DaemonErr.osError => true
  | Except.error DaemonErr.daemonizerError => false

/-! ## Theorems -/

/-- C2: for every `MockTxnDict` and address `a`, membership (and hence
lookup returning `used_value`) holds iff `num_used > 0` and `a` occurs in
`addr_list` at an index `i` with
`max(0, addr_range.start) ≤ i < min(num_used, addr_range.stop)`;
equivalently, usedness is the pure function
`is_used(index, num_used, window)` of the occurrence index. -/
theorem mockTxnDict_membership {β : Type} (d : MockTxnDict Addr β) (a : Addr) :
    (d.contains a = true ↔
       0 < d.num_used ∧ ∃ i : Nat,
         max 0 d.addr_range.start ≤ (i : Int) ∧
         (i : Int) < min (d.num_used : Int) d.addr_range.stop ∧
         d.addr_list.get? i = some a)
    ∧ (d.contains a = true → d.getItem a = d.used_value)
    ∧ (d.contains a = true ↔
       ∃ i : Nat, d.addr_list.get? i = some a ∧
         is_used i d.num_used d.addr_range = true) := by
  have h1 : d.contains a = true ↔
      0 < d.num_used ∧ ∃ i : Nat,
        max 0 d.addr_range.start ≤ (i : Int) ∧
        (i : Int) < min (d.num_used : Int) d.addr_range.stop ∧
        d.addr_list.get? i = some a := by
    unfold MockTxnDict.contains
    by_cases hg : d.num_used = 0 ∨ d.startIdx > d.endIdx
    · rw [if_pos hg]
      simp only [Bool.false_eq_true, false_iff]
      rintro ⟨hnu, i, hb1, hb2, hget⟩
      rcases hg with h | h
      · omega
      · unfold MockTxnDict.startIdx MockTxnDict.endIdx at h
        omega
    · rw [if_neg hg]
      push_neg at hg
      obtain ⟨hnu, hse⟩ := hg
      rw [decide_eq_true_eq]
      unfold MockTxnDict.startIdx MockTxnDict.endIdx
      rw [mem_pySlice d.addr_list _ _ (le_max_left 0 _) a]
      constructor
      · rintro ⟨i, hb1, hb2, hget⟩
        exact ⟨Nat.pos_of_ne_zero hnu, i, hb1, hb2, hget⟩
      · rintro ⟨_, i, hb1, hb2, hget⟩
        exact ⟨i, hb1, hb2, hget⟩
  refine ⟨h1, ?_, ?_⟩
  · intro h
    simp [MockTxnDict.getItem, h]
  · rw [h1]
    simp only [is_used, decide_eq_true_eq]
    constructor
    · rintro ⟨hnu, i, hb1, hb2, hget⟩
      exact ⟨i, hget, hb1, hb2⟩
    · rintro ⟨i, hget, hb1, hb2⟩
      have hlt : (i : Int) < (d.num_used : Int) :=
        lt_of_lt_of_le hb2 (min_le_left _ _)
      exact ⟨by omega, i, hb1, hb2, hget⟩

/-- Concrete `MockTxnDict` used by witnesses: 3 used addresses, probed
window `range(0, 20)`, 5-address list. -/
def wDict : MockTxnDict Addr (List Transaction) :=
  ⟨3, ⟨0, 20⟩, [10, 11, 12, 13, 14], [dummy_txn], []⟩

/-- Witness for C2 at a concrete dict and address: address `11` (index 1,
below `num_used = 3`, inside the window) is contained, so lookup returns
`used_value`. -/
theorem mockTxnDict_membership_witness :
    wDict.contains 11 = true ∧ wDict.getItem 11 = wDict.used_value :=
  ⟨by decide, (mockTxnDict_membership wDict 11).2.1 (by decide)⟩

/-- C9: `stop_walletd` always returns a boolean (it is a total function of
the daemonizer-layer outcomes) and returns `False` exactly when the
daemonizer was obtained and reported `started` and `stop()` returned
failure, or when any daemonizer call raised `DaemonizerError`; an `OSError`
is swallowed and the function returns `True`. -/
theorem stop_walletd_spec (getD : Except DaemonErr Unit)
    (started stopD : Except DaemonErr Bool) :
    (stop_walletd getD started stopD = false ↔
      (getD = Except.error DaemonErr.daemonizerError ∨
       (getD = Except.ok () ∧ started = Except.error DaemonErr.daemonizerError) ∨
       (getD = Except.ok () ∧ started = Except.ok true ∧
         (stopD = Except.ok false ∨ stopD = Except.error DaemonErr.daemonizerError))))
    ∧ (getD = Except.error DaemonErr.osError →
        stop_walletd getD started stopD = true) := by
  constructor
  · cases getD with
    | error e => cases e <;> simp [stop_walletd]
    | ok u =>
      cases u
      cases started with
      | error e => cases e <;> simp [stop_walletd]
      | ok b =>
        cases b
        · simp [stop_walletd]
        · cases stopD with
          | error e => cases e <;> simp [stop_walletd]
          | ok b2 => cases b2 <;> simp [stop_walletd]
  · intro h
    subst h
    simp [stop_walletd]

/-- Witness for C9: an `OSError` from `get_daemonizer` yields `True`
(best-effort success). -/
theorem stop_walletd_spec_witness :
    stop_walletd (Except.error DaemonErr.osError)
      (Except.ok false) (Except.ok true) = true :=
  (stop_walletd_spec (Except.error DaemonErr.osError)
    (Except.ok false) (Except.ok true)).2 rfl

/-- C10: `__init__` raises `ValueError` exactly for a string absent from
the `account_types` table, `TypeError` exactly for a non-string
non-`AccountType` argument, and otherwise succeeds storing the resolved
`AccountType`. -/
theorem init_hd_account_type_validation (table : List (String × AccountType))
    (arg : HDAccountTypeArg) (mk : Nat) (l : List Addr) :
    (mk_provider table arg mk l = Except.error InitError.valueError ↔
      ∃ s, arg = HDAccountTypeArg.str s ∧ table.lookup s = none)
    ∧ (mk_provider table arg mk l = Except.error InitError.typeError ↔
      arg = HDAccountTypeArg.other)
    ∧ (∀ t, resolve_hd_account_type table arg = Except.ok t →
        ∃ st, mk_provider table arg mk l = Except.ok st ∧ st.account_type = t)
    ∧ (∀ st, mk_provider table arg mk l = Except.ok st →
        resolve_hd_account_type table arg = Except.ok st.account_type) := by
  have hres : ∀ e : InitError, mk_provider table arg mk l = Except.error e ↔
      resolve_hd_account_type table arg = Except.error e := by
    intro e
    unfold mk_provider
    cases hr : resolve_hd_account_type table arg with
    | error e2 => simp
    | ok t => simp
  have hok : ∀ t, resolve_hd_account_type table arg = Except.ok t →
      ∃ st, mk_provider table arg mk l = Except.ok st ∧ st.account_type = t := by
    intro t ht
    unfold mk_provider
    rw [ht]
    exact ⟨_, rfl, rfl⟩
  refine ⟨?_, ?_, hok, ?_⟩
  · rw [hres]
    cases arg with
    | str s =>
      cases h : table.lookup s with
      | none =>
        refine iff_of_true ?_ ⟨s, rfl, h⟩
        simp only [resolve_hd_account_type, h]
      | some t =>
        refine iff_of_false ?_ ?_
        · simp only [resolve_hd_account_type, h]
          simp
        · rintro ⟨s2, hs2, hl⟩
          injection hs2 with hss
          subst hss
          rw [h] at hl
          cases hl
    | acctType t =>
      refine iff_of_false (by simp [resolve_hd_account_type]) ?_
      rintro ⟨s2, hs2, hl⟩
      cases hs2
    | other =>
      refine iff_of_false (by simp [resolve_hd_account_type]) ?_
      rintro ⟨s2, hs2, hl⟩
      cases hs2
  · rw [hres]
    cases arg with
    | str s =>
      refine iff_of_false ?_ (by rintro h; cases h)
      cases h : table.lookup s with
      | none => simp only [resolve_hd_account_type, h]; simp
      | some t => simp only [resolve_hd_account_type, h]; simp
    | acctType t =>
      refine iff_of_false (by simp [resolve_hd_account_type]) (by rintro h; cases h)
    | other =>
      exact iff_of_true rfl rfl
  · intro st hst
    unfold mk_provider at hst
    cases hr : resolve_hd_account_type table arg with
    | error e => rw [hr] at hst; cases hst
    | ok t =>
      rw [hr] at hst
      injection hst with h2
      rw [← h2]
      rfl

theorem numAcctsToScan_eq_max (st : MockProviderState) :
    numAcctsToScan st = max 1 st.num_used_accounts := by
  unfold numAcctsToScan
  by_cases h : st.num_used_accounts = 0 <;> simp [h] <;> omega

theorem chainBatchCount_eq_max (st : MockProviderState) (a : Nat) (c : Fin 2) :
    chainBatchCount st a c =
      max 1 (ceilDiv (st.num_used_addresses a c + GAP_LIMIT) DISCOVERY_INCREMENT) := by
  unfold chainBatchCount address_increment
  by_cases h : ceilDiv (st.num_used_addresses a c + GAP_LIMIT) DISCOVERY_INCREMENT = 0 <;>
    simp [h] <;> omega

theorem chainBatchCount_pos (st : MockProviderState) (a : Nat) (c : Fin 2) :
    0 < chainBatchCount st a c := by
  rw [chainBatchCount_eq_max]
  omega

theorem countP_chainPlan (st : MockProviderState) (a2 acct : Nat) (c2 change : Fin 2) :
    (chainPlan st a2 c2).countP (fun e => decide (e.1 = acct ∧ e.2.1 = change)) =
      if a2 = acct ∧ c2 = change then chainBatchCount st a2 c2 else 0 := by
  unfold chainPlan
  rw [List.countP_map]
  by_cases h : a2 = acct ∧ c2 = change
  · rw [if_pos h]
    obtain ⟨rfl, rfl⟩ := h
    simp [Function.comp_def]
  · rw [if_neg h]
    apply List.countP_eq_zero.mpr
    intro i hi
    simpa using h

theorem countP_hdDiscoveryPlan (st : MockProviderState) (acct : Nat) (change : Fin 2) :
    (hdDiscoveryPlan st).countP (fun e => decide (e.1 = acct ∧ e.2.1 = change)) =
      if acct < numAcctsToScan st then chainBatchCount st acct change else 0 := by
  unfold hdDiscoveryPlan
  generalize numAcctsToScan st = n
  induction n with
  | zero => simp
  | succ m ih =>
    rw [List.range_succ]
    rw [List.flatMap_append, List.countP_append, ih]
    simp only [List.flatMap_cons, List.flatMap_nil, List.append_nil]
    rw [List.countP_append, countP_chainPlan, countP_chainPlan]
    by_cases hm : m = acct
    · subst hm
      by_cases hc : change = 0
      · subst hc
        rw [if_neg (lt_irrefl m), if_pos ⟨rfl, rfl⟩,
          if_neg (fun hh => absurd hh.2 (by decide)),
          if_pos (Nat.lt_succ_self m)]
        omega
      · have hv : change.val = 1 := by
          have h2 := change.isLt
          have hne : change.val ≠ 0 := fun hv0 => hc (Fin.ext hv0)
          omega
        have hc1 : change = 1 := Fin.ext hv
        subst hc1
        rw [if_neg (lt_irrefl m), if_neg (fun hh => absurd hh.2 (by decide)),
          if_pos ⟨rfl, rfl⟩, if_pos (Nat.lt_succ_self m)]
        omega
    · have h1 : ¬(m = acct ∧ (0 : Fin 2) = change) := fun hh => hm hh.1
      have h2 : ¬(m = acct ∧ (1 : Fin 2) = change) := fun hh => hm hh.1
      rw [if_neg h1, if_neg h2]
      by_cases ha : acct < m
      · rw [if_pos ha, if_pos (by omega)]
        omega
      · rw [if_neg ha, if_neg (by omega)]

/-- C1: for every chain of every scripted account (and every valid
configuration), the number of `get_transactions` responses queued by
`set_txn_side_effect_for_hd_discovery` for that chain equals
`ceil((num_used + gap_limit) / increment)` with a minimum of 1; in
particular a chain with zero used addresses gets exactly
`ceil(gap_limit / increment)` responses. -/
theorem hd_discovery_batches_per_chain (st : MockProviderState) (acct : Nat)
    (change : Fin 2) (hval : st.num_used_accounts ≤ max_accounts)
    (hacct : acct < numAcctsToScan st) :
    (set_txn_side_effect_for_hd_discovery st).1.txn_side_effects =
        (hdDiscoveryPlan st).map (fun e => e.2.2)
    ∧ ((hdDiscoveryPlan st).countP
          (fun e => decide (e.1 = acct ∧ e.2.1 = change)) =
        max 1 (ceilDiv (st.num_used_addresses acct change + GAP_LIMIT)
          DISCOVERY_INCREMENT))
    ∧ (st.num_used_addresses acct change = 0 →
        (hdDiscoveryPlan st).countP
            (fun e => decide (e.1 = acct ∧ e.2.1 = change)) =
          ceilDiv GAP_LIMIT DISCOVERY_INCREMENT) := by
  have hc : (hdDiscoveryPlan st).countP
      (fun e => decide (e.1 = acct ∧ e.2.1 = change)) =
      chainBatchCount st acct change := by
    rw [countP_hdDiscoveryPlan, if_pos hacct]
  refine ⟨rfl, ?_, ?_⟩
  · rw [hc, chainBatchCount_eq_max]
  · intro h0
    rw [hc, chainBatchCount_eq_max, h0]
    decide

/-- Witness state: one used account, 3 used payout addresses on account 0,
nothing else used. -/
def wState : MockProviderState :=
  { account_type := ⟨1⟩
  , hd_master_key := 7
  , acct_keys := fun i => deriveAcctKeys ⟨1⟩ 7 i
  , num_used_addresses := fun i c => if i = 0 ∧ c = 0 then 3 else 0
  , num_used_accounts := 1
  , addr_list := []
  , balances_hd := fun _ => none
  , txn_side_effects := [] }

/-- Witness for C1 at `wState`, account 0, payout chain:
`ceil((3+20)/20) = 2` responses. -/
theorem hd_discovery_batches_per_chain_witness :
    (hdDiscoveryPlan wState).countP (fun e => decide (e.1 = 0 ∧ e.2.1 = 0)) =
      max 1 (ceilDiv (wState.num_used_addresses 0 0 + GAP_LIMIT)
        DISCOVERY_INCREMENT) :=
  (hd_discovery_batches_per_chain wState 0 0 (by decide) (by decide)).2.1

/-- C4: bootstrap rule — for every valid configuration the set of accounts
for which batches are scripted is exactly the accounts with index
`< max(1, num_used_accounts)`, each covered on both chains; in particular
with zero used accounts, account 0 alone is scripted. -/
theorem hd_discovery_bootstrap (st : MockProviderState) (acct : Nat)
    (change : Fin 2) (hval : st.num_used_accounts ≤ max_accounts) :
    (∃ e ∈ hdDiscoveryPlan st, e.1 = acct ∧ e.2.1 = change) ↔
      acct < max 1 st.num_used_accounts := by
  have hpos : (∃ e ∈ hdDiscoveryPlan st, e.1 = acct ∧ e.2.1 = change) ↔
      0 < (hdDiscoveryPlan st).countP
        (fun e => decide (e.1 = acct ∧ e.2.1 = change)) := by
    rw [List.countP_pos]
    simp
  rw [hpos, countP_hdDiscoveryPlan, numAcctsToScan_eq_max]
  by_cases h : acct < max 1 st.num_used_accounts
  · rw [if_pos h]
    exact iff_of_true (chainBatchCount_pos st acct change) h
  · rw [if_neg h]
    exact iff_of_false (by omega) h

/-- Minimal witness state: a brand-new provider with zero used accounts and
empty address lists. -/
def wStateEmpty : MockProviderState :=
  { account_type := ⟨0⟩
  , hd_master_key := 0
  , acct_keys := fun _ => ⟨0, 0, 0, [], []⟩
  , num_used_addresses := fun _ _ => 0
  , num_used_accounts := 0
  , addr_list := []
  , balances_hd := fun _ => none
  , txn_side_effects := [] }

/-- Witness for C4: with zero used accounts, account 0's payout chain is
still scripted. -/
theorem hd_discovery_bootstrap_witness :
    ∃ e ∈ hdDiscoveryPlan wStateEmpty, e.1 = 0 ∧ e.2.1 = 0 :=
  (hd_discovery_bootstrap wStateEmpty 0 0 (by decide)).mpr (by decide)

theorem mem_hdDiscoveryEffects (st : MockProviderState) (d : TxnResponse)
    (hd : d ∈ hdDiscoveryEffects st) :
    d.used_value = [dummy_txn] ∧ d.unused_value = [] := by
  unfold hdDiscoveryEffects hdDiscoveryPlan chainPlan at hd
  simp only [List.mem_map, List.mem_flatMap, List.mem_append, List.mem_range] at hd
  obtain ⟨e, ⟨acct, hacct, he⟩, rfl⟩ := hd
  rcases he with he | he <;> obtain ⟨i, hi, rfl⟩ := he <;> exact ⟨rfl, rfl⟩

/-- C5: every response scripted for HD discovery answers every address —
lookup never fails, returning `used_value = [dummy_txn]` for a contained
address and `unused_value = []` otherwise, so an empty sequence is the sole
evidence of "unused". -/
theorem hd_discovery_responses_total (st : MockProviderState) (d : TxnResponse)
    (hd : d ∈ hdDiscoveryEffects st) (a : Addr) :
    d.unused_value = [] ∧ d.used_value = [dummy_txn] ∧
    d.getItem a = (if d.contains a then [dummy_txn] else []) ∧
    (d.getItem a = [] ↔ d.contains a = false) := by
  obtain ⟨hu, hn⟩ := mem_hdDiscoveryEffects st d hd
  refine ⟨hn, hu, ?_, ?_⟩
  · unfold MockTxnDict.getItem
    rw [hu, hn]
  · unfold MockTxnDict.getItem
    rw [hu, hn]
    by_cases hc : d.contains a
    · rw [if_pos hc]
      simp [hc]
    · rw [if_neg hc]
      simp [hc]

/-- Witness for C5: the first queued response of a brand-new provider
reports address 0 unused with the empty sequence. -/
theorem hd_discovery_responses_total_witness :
    (chainBatch wStateEmpty 0 0 0).getItem 0 =
      (if (chainBatch wStateEmpty 0 0 0).contains 0 then [dummy_txn] else []) :=
  (hd_discovery_responses_total wStateEmpty (chainBatch wStateEmpty 0 0 0)
    (by decide) 0).2.2.1

theorem callRepeatedly_spec (k : Nat) : ∀ st : MockProviderState,
    (∀ d, st.txn_side_effects.get? k = some d →
      ∃ st2, callRepeatedly st k = Except.ok (d, st2) ∧
        st2.txn_side_effects = st.txn_side_effects.drop (k + 1))
    ∧ (st.txn_side_effects.length ≤ k → callRepeatedly st k = Except.error ()) := by
  induction k with
  | zero =>
    intro st
    constructor
    · intro d hd
      cases hq : st.txn_side_effects with
      | nil => rw [hq] at hd; cases hd
      | cons d0 rest =>
        rw [hq] at hd
        simp only [List.get?] at hd
        injection hd with hdd
        subst hdd
        refine ⟨{ st with txn_side_effects := rest }, ?_, ?_⟩
        · show get_transactions_call st = _
          unfold get_transactions_call
          simp only [hq]
        · rfl
    · intro hlen
      cases hq : st.txn_side_effects with
      | nil =>
        show get_transactions_call st = _
        unfold get_transactions_call
        simp only [hq]
      | cons d0 rest =>
        rw [hq] at hlen
        simp at hlen
  | succ m ih =>
    intro st
    constructor
    · intro d hd
      cases hq : st.txn_side_effects with
      | nil => rw [hq] at hd; cases hd
      | cons d0 rest =>
        rw [hq] at hd
        simp only [List.get?] at hd
        have hcall : get_transactions_call st =
            Except.ok (d0, { st with txn_side_effects := rest }) := by
          unfold get_transactions_call
          simp only [hq]
        have hstep : callRepeatedly st (m + 1) =
            callRepeatedly { st with txn_side_effects := rest } m := by
          show (match get_transactions_call st with
            | Except.error e => Except.error e
            | Except.ok (_, st') => callRepeatedly st' m) = _
          rw [hcall]
        rw [hstep]
        obtain ⟨st2, h1, h2⟩ := (ih { st with txn_side_effects := rest }).1 d hd
        refine ⟨st2, h1, ?_⟩
        rw [h2]
        rfl
    · intro hlen
      cases hq : st.txn_side_effects with
      | nil =>
        have hcall : get_transactions_call st = Except.error () := by
          unfold get_transactions_call
          simp only [hq]
        show (match get_transactions_call st with
          | Except.error e => Except.error e
          | Except.ok (_, st') => callRepeatedly st' m) = _
        rw [hcall]
      | cons d0 rest =>
        rw [hq] at hlen
        have hcall : get_transactions_call st =
            Except.ok (d0, { st with txn_side_effects := rest }) := by
          unfold get_transactions_call
          simp only [hq]
        show (match get_transactions_call st with
          | Except.error e => Except.error e
          | Except.ok (_, st') => callRepeatedly st' m) = _
        rw [hcall]
        exact (ih { st with txn_side_effects := rest }).2 (by simpa using hlen)

/-- C8: `set_txn_side_effect_for_hd_discovery` returns exactly the number
of responses it queued; the `(k+1)`-th subsequent `get_transactions` call
receives the `(k+1)`-th queued response while the queue lasts, and the
first call past the end of the queue raises instead of returning. -/
theorem hd_discovery_queue_order (st : MockProviderState) (k : Nat) :
    ((set_txn_side_effect_for_hd_discovery st).2 = (hdDiscoveryEffects st).length)
    ∧ (∀ d, (hdDiscoveryEffects st).get? k = some d →
        ∃ st2, callRepeatedly (set_txn_side_effect_for_hd_discovery st).1 k =
            Except.ok (d, st2) ∧
          st2.txn_side_effects = (hdDiscoveryEffects st).drop (k + 1))
    ∧ ((hdDiscoveryEffects st).length ≤ k →
        callRepeatedly (set_txn_side_effect_for_hd_discovery st).1 k =
          Except.error ()) := by
  refine ⟨rfl, ?_, ?_⟩
  · intro d hd
    exact (callRepeatedly_spec k (set_txn_side_effect_for_hd_discovery st).1).1 d hd
  · intro hlen
    exact (callRepeatedly_spec k (set_txn_side_effect_for_hd_discovery st).1).2 hlen

/-- Witness for C8: a brand-new provider scripts `N = 2` responses (one per
chain of the bootstrap account); the first call returns the first queued
response and the third call (`N + 1`) errors. -/
theorem hd_discovery_queue_order_witness :
    ((set_txn_side_effect_for_hd_discovery wStateEmpty).2 = 2)
    ∧ (∃ st2, callRepeatedly (set_txn_side_effect_for_hd_discovery wStateEmpty).1 0 =
        Except.ok (chainBatch wStateEmpty 0 0 0, st2) ∧
        st2.txn_side_effects = (hdDiscoveryEffects wStateEmpty).drop 1)
    ∧ callRepeatedly (set_txn_side_effect_for_hd_discovery wStateEmpty).1 2 =
        Except.error () :=
  ⟨(hd_discovery_queue_order wStateEmpty 0).1.trans (by decide),
   (hd_discovery_queue_order wStateEmpty 0).2.1 (chainBatch wStateEmpty 0 0 0)
     (by decide),
   (hd_discovery_queue_order wStateEmpty 2).2.2 (by decide)⟩

/-- C7: assigning `hd_master_key` replaces the master key, re-derives every
account's keys and address lists from the new key, and clears the per-chain
used-address counters of every account; the balance mapping is rebuilt from
the cleared state. -/
theorem hd_master_key_reset (st : MockProviderState) (k : Nat) (i : Nat)
    (hi : i < max_accounts) (c : Fin 2) :
    (hd_master_key_set st k).hd_master_key = k
    ∧ (hd_master_key_set st k).acct_keys i = deriveAcctKeys st.account_type k i
    ∧ (hd_master_key_set st k).num_used_addresses i c = 0
    ∧ (hd_master_key_set st k).balances_hd =
        setup_balances_hd (hd_master_key_set st k) := by
  refine ⟨rfl, rfl, ?_, rfl⟩
  show (if i < max_accounts then 0 else st.num_used_addresses i c) = 0
  rw [if_pos hi]

/-- Witness for C7 at the empty provider, new key 3, account 2, change
chain. -/
theorem hd_master_key_reset_witness :
    (hd_master_key_set wStateEmpty 3).hd_master_key = 3
    ∧ (hd_master_key_set wStateEmpty 3).acct_keys 2 = deriveAcctKeys ⟨0⟩ 3 2
    ∧ (hd_master_key_set wStateEmpty 3).num_used_addresses 2 1 = 0 :=
  ⟨(hd_master_key_reset wStateEmpty 3 2 (by decide) 1).1,
   (hd_master_key_reset wStateEmpty 3 2 (by decide) 1).2.1,
   (hd_master_key_reset wStateEmpty 3 2 (by decide) 1).2.2.1⟩

theorem balStep_lookup (st : MockProviderState) (d : Addr → Option (Nat × Nat))
    (i : Nat) (a : Addr) :
    balStep st d i a =
      if a ∈ usedPayout st i then some (100000, 0)
      else if a ∈ usedChange st i then some (0, 10000)
      else d a := by
  unfold balStep updMany
  by_cases hp : a ∈ usedPayout st i
  · rw [if_pos hp]
  · rw [if_neg hp]

theorem setup_balances_aux (st : MockProviderState) (m : Nat)
    (H : ∀ i, i < m → ∀ j, j < m → ∀ x, x ∈ usedPayout st i → x ∉ usedChange st j)
    (a : Addr) :
    ((List.range m).foldl (balStep st) (fun _ => none) a = some (100000, 0) ↔
      ∃ i, i < m ∧ a ∈ usedPayout st i)
    ∧ ((List.range m).foldl (balStep st) (fun _ => none) a = some (0, 10000) ↔
      ∃ i, i < m ∧ a ∈ usedChange st i)
    ∧ ((List.range m).foldl (balStep st) (fun _ => none) a = none ↔
      ∀ i, i < m → a ∉ usedPayout st i ∧ a ∉ usedChange st i) := by
  induction m with
  | zero =>
    refine ⟨?_, ?_, ?_⟩
    · simp
    · simp
    · simp
  | succ m ih =>
    have H' : ∀ i, i < m → ∀ j, j < m → ∀ x, x ∈ usedPayout st i → x ∉ usedChange st j :=
      fun i hi j hj => H i (by omega) j (by omega)
    obtain ⟨ih1, ih2, ih3⟩ := ih H'
    have hfold : (List.range (m + 1)).foldl (balStep st) (fun _ => none) a =
        balStep st ((List.range m).foldl (balStep st) (fun _ => none)) m a := by
      rw [List.range_succ, List.foldl_append]
      rfl
    rw [hfold, balStep_lookup]
    by_cases hp : a ∈ usedPayout st m
    · rw [if_pos hp]
      refine ⟨?_, ?_, ?_⟩
      · exact iff_of_true rfl ⟨m, Nat.lt_succ_self m, hp⟩
      · refine iff_of_false (by simp) ?_
        rintro ⟨j, hj, hc⟩
        exact H m (Nat.lt_succ_self m) j hj a hp hc
      · refine iff_of_false (by simp) ?_
        intro hall
        exact (hall m (Nat.lt_succ_self m)).1 hp
    · rw [if_neg hp]
      by_cases hc : a ∈ usedChange st m
      · rw [if_pos hc]
        refine ⟨?_, ?_, ?_⟩
        · refine iff_of_false (by simp) ?_
          rintro ⟨j, hj, hpj⟩
          by_cases hjm : j = m
          · exact hp (hjm ▸ hpj)
          · exact H j (by omega) m (Nat.lt_succ_self m) a hpj hc
        · exact iff_of_true rfl ⟨m, Nat.lt_succ_self m, hc⟩
        · refine iff_of_false (by simp) ?_
          intro hall
          exact (hall m (Nat.lt_succ_self m)).2 hc
      · rw [if_neg hc]
        refine ⟨?_, ?_, ?_⟩
        · rw [ih1]
          constructor
          · rintro ⟨i, hi, hpi⟩
            exact ⟨i, by omega, hpi⟩
          · rintro ⟨i, hi, hpi⟩
            refine ⟨i, ?_, hpi⟩
            rcases Nat.lt_succ_iff_lt_or_eq.mp hi with h | h
            · exact h
            · exact absurd (h ▸ hpi) hp
        · rw [ih2]
          constructor
          · rintro ⟨i, hi, hci⟩
            exact ⟨i, by omega, hci⟩
          · rintro ⟨i, hi, hci⟩
            refine ⟨i, ?_, hci⟩
            rcases Nat.lt_succ_iff_lt_or_eq.mp hi with h | h
            · exact h
            · exact absurd (h ▸ hci) hc
        · rw [ih3]
          constructor
          · intro hall i hi
            rcases Nat.lt_succ_iff_lt_or_eq.mp hi with h | h
            · exact hall i h
            · exact h ▸ ⟨hp, hc⟩
          · intro hall i hi
            exact hall i (by omega)

/-- C6: the `get_balance_hd` mapping built by `_setup_balances_hd` contains
exactly the known-used addresses — for every account `i < num_used_accounts`
the first `num_used_addresses[i][0]` payout addresses map to `(100000, 0)`
and the first `num_used_addresses[i][1]` change addresses map to
`(0, 10000)`, and no other address is present; it is empty when
`num_used_accounts = 0`.  The hypothesis that no address is used on both a
payout and a change chain reflects the injectivity of HD address
derivation. -/
theorem balances_hd_exact (st : MockProviderState)
    (H : ∀ i, i < st.num_used_accounts → ∀ j, j < st.num_used_accounts →
      ∀ x, x ∈ usedPayout st i → x ∉ usedChange st j)
    (a : Addr) :
    (setup_balances_hd st a = some (100000, 0) ↔
      ∃ i, i < st.num_used_accounts ∧ a ∈ usedPayout st i)
    ∧ (setup_balances_hd st a = some (0, 10000) ↔
      ∃ i, i < st.num_used_accounts ∧ a ∈ usedChange st i)
    ∧ (setup_balances_hd st a = none ↔
      ∀ i, i < st.num_used_accounts → a ∉ usedPayout st i ∧ a ∉ usedChange st i)
    ∧ (st.num_used_accounts = 0 → setup_balances_hd st a = none) := by
  obtain ⟨h1, h2, h3⟩ := setup_balances_aux st st.num_used_accounts H a
  refine ⟨h1, h2, h3, ?_⟩
  intro h0
  unfold setup_balances_hd
  rw [h0]
  rfl

/-- Witness for C6 at `wState`: the first payout address of account 0 is in
the mapping with balance `(100000, 0)`. -/
theorem balances_hd_exact_witness :
    setup_balances_hd wState (addr_code ⟨1⟩ 7 0 0 0) = some (100000, 0) :=
  (balances_hd_exact wState (by decide) (addr_code ⟨1⟩ 7 0 0 0)).1.mpr
    ⟨0, by decide, by decide⟩

/-- Freshly initialized provider for Scenario A (master key 7, account
type code 1), before any usage is configured. -/
def scenarioABase : MockProviderState :=
  { account_type := ⟨1⟩
  , hd_master_key := 7
  , acct_keys := fun i => deriveAcctKeys ⟨1⟩ 7 i
  , num_used_addresses := fun _ _ => 0
  , num_used_accounts := 0
  , addr_list := []
  , balances_hd := fun _ => none
  , txn_side_effects := [] }

/-- Scenario A: account 0 has payout addresses 0–2 used (3 used) and change
addresses 0–4 used (5 used); accounts 0 and 1 are in scope for the scan. -/
def scenarioA : MockProviderState :=
  set_num_used_addresses
    (set_num_used_addresses (set_num_used_accounts scenarioABase 2) 0 3 0)
    0 5 1

/-- C3, counterexample: in Scenario A (`increment = 20`, `gap_limit = 20`)
the payout chain of account 0 is scripted
`ceil((3 + 20) / 20) = 2` `get_transactions` batches, not 1 as claimed. -/
theorem scenarioA_not_single_batch :
    ¬ ((hdDiscoveryPlan scenarioA).countP
        (fun e => decide (e.1 = 0 ∧ e.2.1 = 0)) = 1) := by
  decide

/-- C3, amended: in Scenario A each chain of account 0 is scripted exactly
two batches; the used addresses of the first payout batch are exactly
indices 0–2 (highest used index 2) and of the first change batch exactly
indices 0–4 (highest used index 4); the second batch of each chain reports
every address unused. -/
theorem scenarioA_batches :
    ((hdDiscoveryPlan scenarioA).countP
        (fun e => decide (e.1 = 0 ∧ e.2.1 = 0)) = 2)
    ∧ ((hdDiscoveryPlan scenarioA).countP
        (fun e => decide (e.1 = 0 ∧ e.2.1 = 1)) = 2)
    ∧ ((0, (0 : Fin 2), chainBatch scenarioA 0 0 0) ∈ hdDiscoveryPlan scenarioA)
    ∧ ((0, (0 : Fin 2), chainBatch scenarioA 0 0 1) ∈ hdDiscoveryPlan scenarioA)
    ∧ (∀ i < DISCOVERY_INCREMENT,
        (chainBatch scenarioA 0 0 0).contains (addr_code ⟨1⟩ 7 0 0 i) =
          decide (i < 3))
    ∧ (∀ i < DISCOVERY_INCREMENT,
        (chainBatch scenarioA 0 1 0).contains (addr_code ⟨1⟩ 7 0 1 i) =
          decide (i < 5))
    ∧ (∀ a : Addr, (chainBatch scenarioA 0 0 1).contains a = false)
    ∧ (∀ a : Addr, (chainBatch scenarioA 0 1 1).contains a = false) := by
  have hm0 : (0, (0 : Fin 2), chainBatch scenarioA 0 0 0) ∈ hdDiscoveryPlan scenarioA := by
    unfold hdDiscoveryPlan
    refine List.mem_flatMap.mpr ⟨0, by decide, List.mem_append_left _ ?_⟩
    unfold chainPlan
    exact List.mem_map.mpr ⟨0, by decide, rfl⟩
  have hm1 : (0, (0 : Fin 2), chainBatch scenarioA 0 0 1) ∈ hdDiscoveryPlan scenarioA := by
    unfold hdDiscoveryPlan
    refine List.mem_flatMap.mpr ⟨0, by decide, List.mem_append_left _ ?_⟩
    unfold chainPlan
    exact List.mem_map.mpr ⟨1, by decide, rfl⟩
  refine ⟨by decide, by decide, hm0, hm1, by decide, by decide, ?_, ?_⟩
  · intro a
    rfl
  · intro a
    rfl

/-- Witness for the amended C3: index 2 of the first payout batch reports
used, index 4 of the first change batch reports used. -/
theorem scenarioA_batches_witness :
    (chainBatch scenarioA 0 0 0).contains (addr_code ⟨1⟩ 7 0 0 2) = decide (2 < 3)
    ∧ (chainBatch scenarioA 0 1 0).contains (addr_code ⟨1⟩ 7 0 1 4) = decide (4 < 5) :=
  ⟨scenarioA_batches.2.2.2.2.1 2 (by decide),
   scenarioA_batches.2.2.2.2.2.1 4 (by decide)⟩

/-- Witness for C10: the empty table rejects the string `"BIP44"` with
`ValueError`, and an explicit `AccountType` argument is accepted and
stored. -/
theorem init_hd_account_type_validation_witness :
    mk_provider [] (HDAccountTypeArg.str "BIP44") 0 [] =
      Except.error InitError.valueError ∧
    ∃ st, mk_provider [] (HDAccountTypeArg.acctType ⟨2⟩) 0 [] = Except.ok st ∧
      st.account_type = ⟨2⟩ :=
  ⟨(init_hd_account_type_validation [] (HDAccountTypeArg.str "BIP44") 0 []).1.mpr
      ⟨"BIP44", rfl, rfl⟩,
   (init_hd_account_type_validation [] (HDAccountTypeArg.acctType ⟨2⟩) 0 []).2.2.1
      ⟨2⟩ rfl⟩

end Two1

